import Mathlib

set_option autoImplicit false

namespace DidSiop

/-!
Shallow embedding of the key codec layer and the `RS256Key` class of
`src/src/JWKUtils.ts`, and of the `Identity` document wrapper
(`resolve`, `setDocument`, `extractAuthenticationKeys`).

External libraries (NodeRSA PEM parsing, the `base64url` and `bs58` npm
packages, the `elliptic` curve engine, Node `Buffer` codecs) are embedded by
their documented behaviour; where a library produces a parse result that the
source then re-encodes (NodeRSA's `keyPair` big integers), that parse result
is passed in as an explicit input.  Bytes are modelled as `Nat` values below
256 in big-endian lists.
-/

/-- Standard Base64 alphabet, used by Node `Buffer.prototype.toString` with
the `base64` encoding (the `e` field path in `RS256Key.fromPublicKey`). -/
def stdTable : List Char :=
  "ABCDEFGHIJKLMNOPQRSTUVWXYZabcdefghijklmnopqrstuvwxyz0123456789+/".data

/-- URL-safe Base64 alphabet, used by `base64url.encode` (no padding). -/
def urlTable : List Char :=
  "ABCDEFGHIJKLMNOPQRSTUVWXYZabcdefghijklmnopqrstuvwxyz0123456789-_".data

/-- Total table lookup; out-of-range indices return `'A'` (never reached on
byte input, but keeps the encoder total). -/
def tableGet : List Char → Nat → Char
  | [], _ => 'A'
  | c :: _, 0 => c
  | _ :: rest, n + 1 => tableGet rest n

/-- Core Base64 encoder over an alphabet table; `pad` selects whether `'='`
padding is appended (standard Base64) or omitted (`base64url.encode`). -/
def b64EncodeCore (t : List Char) (pad : Bool) : List Nat → List Char
  | [] => []
  | [a] =>
      [tableGet t (a / 4), tableGet t (a % 4 * 16)]
        ++ (if pad then ['=', '='] else [])
  | [a, b] =>
      [tableGet t (a / 4), tableGet t (a % 4 * 16 + b / 16), tableGet t (b % 16 * 4)]
        ++ (if pad then ['='] else [])
  | a :: b :: c :: rest =>
      tableGet t (a / 4) :: tableGet t (a % 4 * 16 + b / 16) ::
        tableGet t (b % 16 * 4 + c / 64) :: tableGet t (c % 64) ::
        b64EncodeCore t pad rest

/-- `base64url.encode`: URL-safe alphabet, no padding characters. -/
def base64urlEncode (bs : List Nat) : String :=
  String.mk (b64EncodeCore urlTable false bs)

/-- `Buffer.prototype.toString` with encoding `base64`: standard alphabet with
`'='` padding. -/
def base64StdEncode (bs : List Nat) : String :=
  String.mk (b64EncodeCore stdTable true bs)

/-- The property "is Base64URL text with no padding characters": every
character is in the URL-safe alphabet (which does not contain `'='`). -/
def B64UrlNoPad (s : String) : Prop := ∀ c ∈ s.data, c ∈ urlTable

/-- The property "is standard Base64 text": every character is in the standard
alphabet or is the `'='` padding character. -/
def B64StdText (s : String) : Prop := ∀ c ∈ s.data, c ∈ stdTable ∨ c = '='

/-- Value of one hexadecimal digit character. -/
def hexVal (c : Char) : Option Nat :=
  if '0' ≤ c ∧ c ≤ '9' then some (c.toNat - 48)
  else if 'a' ≤ c ∧ c ≤ 'f' then some (c.toNat - 87)
  else if 'A' ≤ c ∧ c ≤ 'F' then some (c.toNat - 55)
  else none

/-- Node `Buffer.from(s, "hex")`: decodes complete hexadecimal digit pairs
from the start of the string and stops silently at the first character pair
that is not two hex digits (including a trailing lone digit).  It never
throws, so a malformed string yields the bytes of its longest valid prefix. -/
def nodeHexDecode : List Char → List Nat
  | c1 :: c2 :: rest =>
      match hexVal c1, hexVal c2 with
      | some h, some l => (h * 16 + l) :: nodeHexDecode rest
      | _, _ => []
  | _ => []

/-- Second definition for the refinement comparison, following the spec's
words: the full decoded byte sequence of a (well-formed) hex string, one byte
per digit pair. -/
def specFullHexDecode : List Char → List Nat
  | c1 :: c2 :: rest =>
      ((hexVal c1).getD 0 * 16 + (hexVal c2).getD 0) :: specFullHexDecode rest
  | _ => []

/-- A string is well-formed raw hexadecimal: even length, all hex digits. -/
def isHexText (s : String) : Bool :=
  s.data.all (fun c => (hexVal c).isSome) && decide (s.data.length % 2 = 0)

/-- Value of one decimal digit character. -/
def decVal (c : Char) : Option Nat :=
  if '0' ≤ c ∧ c ≤ '9' then some (c.toNat - 48) else none

/-- JavaScript `Number` coercion as applied by `str % 2` to a digit string:
the decimal value when every character is a decimal digit (the empty string
coerces to `0`), `none` (`NaN`) otherwise — note a hex string containing a
letter coerces to `NaN`. -/
def jsDecNumber (cs : List Char) : Option Nat :=
  cs.foldl
    (fun acc c =>
      match acc, decVal c with
      | some v, some d => some (v * 10 + d)
      | _, _ => none)
    (some 0)

/-- JavaScript `BigInteger.prototype.toString(16)`: minimal lowercase hex. -/
def natToHex (n : Nat) : String := String.mk (Nat.toDigits 16 n)

/-- The `e` field computation shared by the PEM branches of
`RS256Key.fromPublicKey` and `RS256Key.fromPrivateKey`:
`e = keyPair.e.toString(16); e = (e % 2 === 0) ? e : '0' + e;`
`e = Buffer.from(e, 'hex').toString('base64')`.
The `%` is applied to the hex *string*, so JavaScript coerces it with
`Number` (decimal; `NaN` for hex strings containing letters) before testing
evenness, and the final step is standard Base64 with padding. -/
def eFieldHexPadded (e : Nat) : String :=
  let s0 := natToHex e
  match jsDecNumber s0.data with
  | some v => if v % 2 = 0 then s0 else "0" ++ s0
  | none => "0" ++ s0

/-- Final step of the `e` pipeline: hex-decode the (supposedly) padded hex
string and render the bytes as standard Base64 with padding. -/
def encodeEField (e : Nat) : String :=
  base64StdEncode (nodeHexDecode (eFieldHexPadded e).data)

/-- `KeyObjects.RSAPublicKeyObject`. -/
structure RSAPublicKeyObject where
  kty : String
  use : String
  kid : String
  alg : String
  e : String
  n : String
deriving DecidableEq, Repr

/-- `KeyObjects.RSAPrivateKeyObject`. -/
structure RSAPrivateKeyObject where
  kty : String
  use : String
  kid : String
  alg : String
  p : String
  q : String
  d : String
  e : String
  qi : String
  dp : String
  dq : String
  n : String
deriving DecidableEq, Repr

/-- Result of `new NodeRSA().importKey(pem, format)` as the source consumes
it: the `keyPair` big integers rendered through `toBuffer()` (big-endian,
possibly carrying a leading sign byte), and `e` as a number.  The PEM parser
itself is the external NodeRSA library, so its output is an input here. -/
structure PemParsedKeyPair where
  nBuf : List Nat
  eVal : Nat
  pBuf : List Nat
  qBuf : List Nat
  dBuf : List Nat
  coeffBuf : List Nat
  dmp1Buf : List Nat
  dmq1Buf : List Nat
deriving DecidableEq, Repr

/-- The `RS256Key` class fields. -/
structure RS256Key where
  kid : String
  kty : String
  alg : String
  use : String
  p : Option String
  q : Option String
  d : Option String
  e : String
  qi : Option String
  dp : Option String
  dq : Option String
  n : String
  isPrivate : Bool
deriving DecidableEq, Repr

/-- The `RS256Key` constructor (`KTYS.RSA`, `ALGS.RS256` fixed). -/
def RS256Key.base (kid n e : String) (sig : Bool) : RS256Key :=
  { kid := kid, kty := "RSA", alg := "RS256",
    use := if sig then "sig" else "enc",
    p := none, q := none, d := none, qi := none, dp := none, dq := none,
    n := n, e := e, isPrivate := false }

/-- `RS256Key.fromPublicKey`: the object branch (left) copies `kid`, `n`, `e`
from the canonical key object and ignores the `kid` argument; the PEM branch
(right) re-encodes the parsed key pair, dropping the first byte of the
modulus buffer (`slice(1)`) and running the `e` quirk pipeline. -/
def RS256Key.fromPublicKey (key : RSAPublicKeyObject ⊕ PemParsedKeyPair)
    (kid : String) (sig : Bool) : RS256Key :=
  match key with
  | .inl k => RS256Key.base k.kid k.n k.e sig
  | .inr kp =>
      RS256Key.base kid (base64urlEncode (kp.nBuf.drop 1)) (encodeEField kp.eVal) sig

/-- `RS256Key.fromPrivateKey`: object branch copies every field from the
object (ignoring the `kid` argument); PEM branch base64url-encodes the parsed
buffers, with `slice(1)` applied to `n`, `p`, `q` only. -/
def RS256Key.fromPrivateKey (key : RSAPrivateKeyObject ⊕ PemParsedKeyPair)
    (kid : String) (sig : Bool) : RS256Key :=
  match key with
  | .inl k =>
      { RS256Key.base k.kid k.n k.e sig with
        isPrivate := true,
        p := some k.p, q := some k.q, d := some k.d,
        qi := some k.qi, dp := some k.dp, dq := some k.dq }
  | .inr kp =>
      { RS256Key.base kid (base64urlEncode (kp.nBuf.drop 1)) (encodeEField kp.eVal) sig with
        isPrivate := true,
        p := some (base64urlEncode (kp.pBuf.drop 1)),
        q := some (base64urlEncode (kp.qBuf.drop 1)),
        d := some (base64urlEncode kp.dBuf),
        qi := some (base64urlEncode kp.coeffBuf),
        dp := some (base64urlEncode kp.dmp1Buf),
        dq := some (base64urlEncode kp.dmq1Buf) }

/-- The `KEYFORMATS` enumeration. -/
inductive KEYFORMATS where
  | publicKeyPem
  | publicKeyHex
  | publicKeyBase58
  | publicKeyBase64
deriving DecidableEq, Repr

/-- `ERRORS.INVALID_KEY_FORMAT`. -/
def INVALID_KEY_FORMAT : String := "Invalid key format error"

/-- Bitcoin Base58 alphabet used by the `bs58` package. -/
def b58Alphabet : List Char :=
  "123456789ABCDEFGHJKLMNPQRSTUVWXYZabcdefghijkmnopqrstuvwxyz".data

/-- Index of a character in a table, if present. -/
def indexInTable : List Char → Char → Option Nat
  | [], _ => none
  | c :: rest, x => if x = c then some 0 else (indexInTable rest x).map (· + 1)

/-- Every character of the string is in the Base58 alphabet (otherwise
`bs58.decode` throws a non-base58-character error). -/
def isB58String (s : String) : Bool :=
  s.data.all (fun c => (indexInTable b58Alphabet c).isSome)

/-- Big-endian byte expansion of a natural number (empty for `0`); the first
argument is fuel, always called with enough of it. -/
def natToBytesBEAux : Nat → Nat → List Nat → List Nat
  | 0, _, acc => acc
  | fuel + 1, n, acc =>
      if n = 0 then acc else natToBytesBEAux fuel (n / 256) (n % 256 :: acc)

/-- Base-58 place value of a digit string. -/
def b58DecodeNat (cs : List Char) : Nat :=
  cs.foldl (fun acc c => acc * 58 + (indexInTable b58Alphabet c).getD 0) 0

/-- Leading `'1'` digits of a Base58 string become leading zero bytes. -/
def countLeadingOnes : List Char → Nat
  | '1' :: rest => countLeadingOnes rest + 1
  | _ => 0

/-- `bs58.decode` on a string whose characters are all in the alphabet. -/
def b58Decode (cs : List Char) : List Nat :=
  List.replicate (countLeadingOnes cs) 0
    ++ natToBytesBEAux (b58DecodeNat cs + 1) (b58DecodeNat cs) []

/-- Value of a Base64 character, accepting both the standard and the URL-safe
alphabets (`base64url.fromBase64` maps `+` to `-` and `/` to `_` and strips
`=` before `Buffer.from(s, "base64")` runs). -/
def b64CharVal (c : Char) : Option Nat :=
  if 'A' ≤ c ∧ c ≤ 'Z' then some (c.toNat - 65)
  else if 'a' ≤ c ∧ c ≤ 'z' then some (c.toNat - 71)
  else if '0' ≤ c ∧ c ≤ '9' then some (c.toNat + 4)
  else if c = '+' ∨ c = '-' then some 62
  else if c = '/' ∨ c = '_' then some 63
  else none

/-- Regroup 6-bit values into bytes; a trailing group of one value is
dropped, as Node does. -/
def b64Groups : List Nat → List Nat
  | a :: b :: c :: d :: rest =>
      (a * 4 + b / 16) :: (b % 16 * 16 + c / 4) :: (c % 4 * 64 + d) :: b64Groups rest
  | [a, b] => [a * 4 + b / 16]
  | [a, b, c] => [a * 4 + b / 16, b % 16 * 16 + c / 4]
  | _ => []

/-- `base64url.toBuffer(base64url.fromBase64(s))`: Node's Base64 decoding is
lenient — characters outside the alphabet are skipped, nothing throws. -/
def nodeBase64Decode (cs : List Char) : List Nat :=
  b64Groups (cs.filterMap b64CharVal)

/-- The key-string decoding switch shared verbatim by `getOKP`
(JWKUtils.ts lines 216-224) and `getECKey` (lines 259-267): Base58 throws a
wrapped invalid-key-format error on a non-alphabet character, Base64 and hex
decode leniently and never throw, and every other tag — including
`publicKeyPem`, which is a member of `KEYFORMATS` — falls to the `default`
branch and throws the invalid-key-format error. -/
def decodeKeyString (keyFormat : KEYFORMATS) (s : String) : Except String (List Nat) :=
  match keyFormat with
  | .publicKeyBase58 =>
      if isB58String s then .ok (b58Decode s.data) else .error INVALID_KEY_FORMAT
  | .publicKeyBase64 => .ok (nodeBase64Decode s.data)
  | .publicKeyHex => .ok (nodeHexDecode s.data)
  | .publicKeyPem => .error INVALID_KEY_FORMAT

/-- An entry of the document's separate `publicKey` collection; `material`
stands for the key material the extractor strategy reads from it. -/
structure PubEntry where
  id : String
  material : Nat
deriving DecidableEq, Repr

/-- The `publicKey` field of a verification method: a single string or a
list of strings (both supported by the source). -/
inductive PubKeyRef where
  | one : String → PubKeyRef
  | many : List String → PubKeyRef
deriving DecidableEq, Repr

/-- One entry of `doc.authentication` / `doc.verificationMethod`: either a
bare string, or an object with (possibly absent or empty, hence falsy)
`id` and `type` fields and an optional `publicKey` field. -/
inductive DidMethod where
  | str : String → DidMethod
  | obj : Option String → Option String → Option PubKeyRef → DidMethod
deriving DecidableEq, Repr

/-- What `extractor.extract` is called on: a whole verification method or a
`publicKey` entry. -/
inductive Desc where
  | fromMethod : DidMethod → Desc
  | fromPub : PubEntry → Desc
deriving DecidableEq, Repr

/-- The pluggable extractor strategy: `none` models a thrown extraction
error, `some k` a successfully built verification key (keys are opaque). -/
def Extractor : Type := Desc → Option Nat

/-- The resolved DID document shape the `Identity` class reads.  `Option`
models fields that may be absent (`undefined`) in JavaScript. -/
structure DidDocument where
  id : String
  authentication : Option (List DidMethod)
  verificationMethod : Option (List DidMethod)
  publicKey : Option (List PubEntry)
deriving DecidableEq, Repr

/-- The `Identity` wrapper state: the document and the cached key set. -/
structure Identity where
  doc : DidDocument
  keySet : List Nat
deriving DecidableEq, Repr

/-- Error kinds of `commons.ERRORS` used by `Identity` (the `commons` module
is not under `src/`, so the kinds are modelled from the spec's error list),
plus the raw `TypeError` JavaScript raises when a `for..of` loop iterates an
`undefined` collection. -/
inductive IdErr where
  | documentResolution
  | invalidDid
  | unresolvedDocument
  | invalidDocument
  | jsTypeErr
deriving DecidableEq, Repr

/-- JavaScript truthiness of a possibly-absent string field (absent and the
empty string are falsy). -/
def sTruthy : Option String → Bool
  | none => false
  | some s => decide (s ≠ "")

/-- JavaScript truthiness of a possibly-absent `publicKey` field (an array is
always truthy, even when empty; an empty string is falsy). -/
def pkTruthy : Option PubKeyRef → Bool
  | none => false
  | some (.one s) => decide (s ≠ "")
  | some (.many _) => true

/-- The check `doc.authentication && doc.authentication.length > 0`. -/
def authNonEmptyCheck (doc : DidDocument) : Bool :=
  match doc.authentication with
  | some l => decide (0 < l.length)
  | none => false

/-- `Identity.setDocument(doc, did)`: stores the document when `doc.id == did`
and `doc.authentication` is present and non-empty, otherwise throws the
invalid-document error; the returned state is the wrapper state after the
call (unchanged on the error path — in particular `keySet` is never
cleared). -/
def Identity.setDocument (st : Identity) (doc : DidDocument) (did : String) :
    Identity × Option IdErr :=
  if doc.id = did ∧ authNonEmptyCheck doc = true then
    ({ st with doc := doc }, none)
  else
    (st, some .invalidDocument)

/-- `Identity.resolve(did)`.  The external `combinedDidResolver` is an input:
`none` models a resolver that threw (document-resolution error), `some none`
a result without a `didDocument` field, `some (some result)` a resolved
document.  On success the document is stored and the cached key set is
cleared. -/
def Identity.resolve (st : Identity) (did : String)
    (resolverOutput : Option (Option DidDocument)) :
    Except IdErr (String × Identity) :=
  match resolverOutput with
  | none => .error .documentResolution
  | some none => .error .invalidDid
  | some (some result) =>
      if result.id = did ∧ authNonEmptyCheck result = true then
        .ok (result.id, { doc := result, keySet := [] })
      else .error .invalidDid

/-- `Identity.isResolved()`. -/
def Identity.isResolved (st : Identity) : Bool := decide (st.doc.id ≠ "")

/-- One extractor call inside a try/catch whose `catch` continues the loop:
a thrown extraction error contributes nothing. -/
def extractOne (ext : Extractor) (d : Desc) : List Nat :=
  match ext d with
  | some k => [k]
  | none => []

/-- Walk the document's `publicKey` collection for one reference name: an
entry matches on exact `id` equality or (when `relative` — the indirect
`publicKey`-field cases) on `id = doc.id ++ name`; each match is passed to
the extractor, failures are skipped. -/
def collectPubs (docId : String) (ext : Extractor) (name : String)
    (relative : Bool) : List PubEntry → List Nat
  | [] => []
  | pub :: rest =>
      (if pub.id = name ∨ (relative = true ∧ pub.id = docId ++ name) then
        extractOne ext (.fromPub pub)
      else [])
        ++ collectPubs docId ext name relative rest

/-- The `method.publicKey` block of `extractAuthenticationKeys`: a truthy
string reference resolves against `doc.publicKey` (iterating an absent
collection raises a `TypeError`), a list reference resolves each name in
order; `ks` holds the keys this method contributed so far. -/
def processPk (doc : DidDocument) (ext : Extractor) (mpk : Option PubKeyRef)
    (ks : List Nat) : Except IdErr (List Nat) :=
  if pkTruthy mpk = true then
    match mpk with
    | some (.one s) =>
        match doc.publicKey with
        | none => .error .jsTypeErr
        | some pubs => .ok (ks ++ collectPubs doc.id ext s true pubs)
    | some (.many names) =>
        match names with
        | [] => .ok ks
        | _ :: _ =>
            match doc.publicKey with
            | none => .error .jsTypeErr
            | some pubs =>
                .ok (ks ++ names.foldr
                  (fun nm acc => collectPubs doc.id ext nm true pubs ++ acc) [])
    | none => .ok ks
  else .ok ks

/-- Processing of one reference of the selected method list, in source
order: the inline shape (truthy `id` and `type`) is passed to the extractor —
on failure the `catch` `continue`s the *outer* loop, skipping the remaining
shapes of this reference; then the `publicKey` shape; a bare string resolves
against `doc.publicKey` by exact `id` match only. -/
def processMethod (doc : DidDocument) (ext : Extractor) (m : DidMethod) :
    Except IdErr (List Nat) :=
  match m with
  | .str s =>
      match doc.publicKey with
      | none => .error .jsTypeErr
      | some pubs => .ok (collectPubs doc.id ext s false pubs)
  | .obj mid mty mpk =>
      match
        (if sTruthy mid = true ∧ sTruthy mty = true then
          match ext (.fromMethod (.obj mid mty mpk)) with
          | some k => some [k]
          | none => none
        else some []) with
      | none => .ok []
      | some ks => processPk doc ext mpk ks

/-- The extraction pass over the selected method list, in list order. -/
def walkMethods (doc : DidDocument) (ext : Extractor) :
    List DidMethod → Except IdErr (List Nat)
  | [] => .ok []
  | m :: rest =>
      match processMethod doc ext m with
      | .error e => .error e
      | .ok ks =>
          match walkMethods doc ext rest with
          | .error e => .error e
          | .ok more => .ok (ks ++ more)

/-- The test `new RegExp('^did:ion').test(doc.id)`. -/
def isIonDoc (doc : DidDocument) : Bool :=
  List.isPrefixOf "did:ion".data doc.id.data

/-- `Identity.extractAuthenticationKeys(extractor)`: fails when unresolved;
returns the cached key set when it is non-empty; otherwise selects
`verificationMethod` for `did:ion` documents and `authentication` otherwise,
walks it, caches and returns the result. -/
def Identity.extractAuthenticationKeys (st : Identity) (ext : Extractor) :
    Except IdErr (List Nat × Identity) :=
  if st.doc.id = "" then .error .unresolvedDocument
  else if st.keySet.length = 0 then
    match (if isIonDoc st.doc = true then st.doc.verificationMethod
           else st.doc.authentication) with
    | none => .error .jsTypeErr
    | some methods =>
        match walkMethods st.doc ext methods with
        | .error e => .error e
        | .ok ks => .ok (ks, { st with keySet := ks })
  else .ok (st.keySet, st)

/-- Outcome of a fresh extraction pass over a given method list (used to
state the branch-selection property). -/
def walkOutcome (st : Identity) (ext : Extractor) (ms : List DidMethod) :
    Except IdErr (List Nat × Identity) :=
  match walkMethods st.doc ext ms with
  | .error e => .error e
  | .ok ks => .ok (ks, { st with keySet := ks })

/-- A method is a well-formed inline reference: object shape with truthy
`id` and `type` and no `publicKey` field. -/
def inlineOnlyB : DidMethod → Bool
  | .obj mid mty none => sTruthy mid && sTruthy mty
  | _ => false

/-! Concrete documents, extractors and wrapper states used by the
counterexamples and witnesses. -/

def mA : DidMethod := .obj (some "m1") (some "T") none

def mB : DidMethod := .obj (some "m2") (some "T") none

def mBad : DidMethod := .obj (some "m3") (some "UnsupportedType") none

def docA : DidDocument :=
  { id := "did:x", authentication := some [mA],
    verificationMethod := none, publicKey := none }

def docB : DidDocument :=
  { id := "did:x", authentication := some [mB],
    verificationMethod := none, publicKey := none }

/-- An extractor that can build keys from methods `m1` and `m2` but fails on
every other description (e.g. an unsupported `type`). -/
def extAB : Extractor := fun d =>
  match d with
  | .fromMethod (.obj (some "m1") _ _) => some 1
  | .fromMethod (.obj (some "m2") _ _) => some 2
  | _ => none

def stA : Identity := { doc := docA, keySet := [] }

def stB : Identity := { doc := docA, keySet := [1] }

def stC : Identity := { doc := docB, keySet := [1] }

def stD : Identity :=
  { doc := { id := "did:y", authentication := some [mA, mBad, mB],
             verificationMethod := none, publicKey := none },
    keySet := [] }

def docIon : DidDocument :=
  { id := "did:ion:abc", authentication := some [mA],
    verificationMethod := some [mB], publicKey := none }

def stIon : Identity := { doc := docIon, keySet := [] }

def fragDoc : DidDocument :=
  { id := "did:z", authentication := some [],
    verificationMethod := none,
    publicKey := some [{ id := "did:z#frag", material := 7 },
                       { id := "did:z#k2", material := 9 }] }

/-- An extractor that builds a key from any `publicKey` entry. -/
def extPub : Extractor := fun d =>
  match d with
  | .fromPub p => some p.material
  | .fromMethod _ => none

/-! Helper lemmas. -/

theorem tableGet_mem (t : List Char) (i : Nat) :
    tableGet t i = 'A' ∨ tableGet t i ∈ t := by
  induction t generalizing i with
  | nil =>
      left
      cases i <;> rfl
  | cons c rest ih =>
      cases i with
      | zero => right; exact List.mem_cons_self c rest
      | succ n =>
          rcases ih n with h | h
          · left; exact h
          · right; exact List.mem_cons_of_mem c h

theorem b64core_mem (t : List Char) (pad : Bool) (bs : List Nat) :
    ∀ c ∈ b64EncodeCore t pad bs, (c = 'A' ∨ c ∈ t) ∨ (pad = true ∧ c = '=') := by
  induction bs using b64EncodeCore.induct t pad with
  | case1 => intro c hc; simp [b64EncodeCore] at hc
  | case2 a =>
      intro c hc
      simp only [b64EncodeCore, List.mem_append, List.mem_cons,
        List.not_mem_nil, or_false] at hc
      rcases hc with (h | h) | h
      · left; rw [h]; exact tableGet_mem t _
      · left; rw [h]; exact tableGet_mem t _
      · cases pad with
        | false => simp at h
        | true =>
            right
            refine ⟨rfl, ?_⟩
            simp at h
            exact h
  | case3 a b =>
      intro c hc
      simp only [b64EncodeCore, List.mem_append, List.mem_cons,
        List.not_mem_nil, or_false] at hc
      rcases hc with (h | h | h) | h
      · left; rw [h]; exact tableGet_mem t _
      · left; rw [h]; exact tableGet_mem t _
      · left; rw [h]; exact tableGet_mem t _
      · cases pad with
        | false => simp at h
        | true =>
            right
            refine ⟨rfl, ?_⟩
            simpa using h
  | case4 a b c0 rest ih =>
      intro c hc
      simp only [b64EncodeCore, List.mem_cons] at hc
      rcases hc with h | h | h | h | h
      · left; rw [h]; exact tableGet_mem t _
      · left; rw [h]; exact tableGet_mem t _
      · left; rw [h]; exact tableGet_mem t _
      · left; rw [h]; exact tableGet_mem t _
      · exact ih c h

theorem b64url_noPad (bs : List Nat) : B64UrlNoPad (base64urlEncode bs) := by
  intro c hc
  have h := b64core_mem urlTable false bs c hc
  rcases h with (h | h) | h
  · rw [h]; decide
  · exact h
  · exact absurd h.1 (by simp)

theorem b64std_text (bs : List Nat) : B64StdText (base64StdEncode bs) := by
  intro c hc
  have h := b64core_mem stdTable true bs c hc
  rcases h with (h | h) | h
  · left; rw [h]; decide
  · left; exact h
  · right; exact h.2

theorem length_filterMap_count {α β : Type} (f : α → Option β) (l : List α) :
    (l.filterMap f).length = l.countP (fun a => (f a).isSome) := by
  induction l with
  | nil => rfl
  | cons a l ih =>
      cases h : f a <;>
        simp [List.filterMap_cons, h, List.countP_cons, ih]

theorem nodeHexDecode_eq_full (n : Nat) :
    ∀ cs : List Char, cs.length ≤ n →
      cs.all (fun c => (hexVal c).isSome) = true → cs.length % 2 = 0 →
      nodeHexDecode cs = specFullHexDecode cs := by
  induction n with
  | zero =>
      intro cs hle _ _
      have h0 : cs = [] := List.length_eq_zero.mp (Nat.le_zero.mp hle)
      rw [h0]
      rfl
  | succ n ih =>
      intro cs hle hdig hlen
      rcases cs with _ | ⟨c1, _ | ⟨c2, rest⟩⟩
      · rfl
      · simp at hlen
      · rw [List.all_cons, Bool.and_eq_true] at hdig
        obtain ⟨h1, hdig⟩ := hdig
        rw [List.all_cons, Bool.and_eq_true] at hdig
        obtain ⟨h2, hdig⟩ := hdig
        obtain ⟨v1, hv1⟩ := Option.isSome_iff_exists.mp h1
        obtain ⟨v2, hv2⟩ := Option.isSome_iff_exists.mp h2
        have hrest : nodeHexDecode rest = specFullHexDecode rest := by
          refine ih rest ?_ hdig ?_
          · simp at hle; omega
          · simp at hlen ⊢; omega
        simp [nodeHexDecode, specFullHexDecode, hv1, hv2, hrest]

theorem authCheck_iff (doc : DidDocument) :
    authNonEmptyCheck doc = true ↔
      ∃ l, doc.authentication = some l ∧ l ≠ [] := by
  cases h : doc.authentication with
  | none => simp [authNonEmptyCheck, h]
  | some l =>
      simp [authNonEmptyCheck, h, List.length_pos]

theorem collectPubs_eq_foldr (docId : String) (ext : Extractor) (name : String)
    (pubs : List PubEntry) :
    collectPubs docId ext name true pubs =
      pubs.foldr
        (fun pub acc =>
          (if pub.id = name ∨ pub.id = docId ++ name then
            extractOne ext (.fromPub pub)
          else []) ++ acc)
        [] := by
  induction pubs with
  | nil => rfl
  | cons p rest ih =>
      simp only [collectPubs, List.foldr_cons, ih, true_and]

theorem walk_inline (doc : DidDocument) (ext : Extractor) :
    ∀ ms : List DidMethod, ms.all inlineOnlyB = true →
      walkMethods doc ext ms =
        .ok (ms.filterMap (fun m => ext (.fromMethod m))) := by
  intro ms
  induction ms with
  | nil => intro _; rfl
  | cons m rest ih =>
      intro h
      rw [List.all_cons, Bool.and_eq_true] at h
      obtain ⟨hm, hrest⟩ := h
      have hwr := ih hrest
      cases m with
      | str s => simp [inlineOnlyB] at hm
      | obj mid mty mpk =>
          cases mpk with
          | some pk => simp [inlineOnlyB] at hm
          | none =>
              rw [inlineOnlyB, Bool.and_eq_true] at hm
              obtain ⟨h1, h2⟩ := hm
              cases hext : ext (.fromMethod (.obj mid mty none)) with
              | none =>
                  simp [walkMethods, processMethod, h1, h2, hext, hwr,
                    List.filterMap_cons]
              | some k =>
                  simp [walkMethods, processMethod, processPk, pkTruthy,
                    h1, h2, hext, hwr, List.filterMap_cons]

theorem extract_unresolved (st : Identity) (ext : Extractor)
    (h0 : st.doc.id = "") :
    Identity.extractAuthenticationKeys st ext = .error .unresolvedDocument := by
  unfold Identity.extractAuthenticationKeys
  rw [if_pos h0]

theorem extract_cached (st : Identity) (ext : Extractor)
    (h0 : ¬st.doc.id = "") (hks : ¬st.keySet.length = 0) :
    Identity.extractAuthenticationKeys st ext = .ok (st.keySet, st) := by
  unfold Identity.extractAuthenticationKeys
  rw [if_neg h0, if_neg hks]

theorem extract_sel_none (st : Identity) (ext : Extractor)
    (h0 : ¬st.doc.id = "") (hks : st.keySet.length = 0)
    (hsel : (if isIonDoc st.doc = true then st.doc.verificationMethod
             else st.doc.authentication) = none) :
    Identity.extractAuthenticationKeys st ext = .error .jsTypeErr := by
  unfold Identity.extractAuthenticationKeys
  rw [if_neg h0, if_pos hks, hsel]

theorem extract_fresh (st : Identity) (ext : Extractor) (ms : List DidMethod)
    (h0 : ¬st.doc.id = "") (hks : st.keySet.length = 0)
    (hsel : (if isIonDoc st.doc = true then st.doc.verificationMethod
             else st.doc.authentication) = some ms) :
    Identity.extractAuthenticationKeys st ext = walkOutcome st ext ms := by
  unfold Identity.extractAuthenticationKeys walkOutcome
  rw [if_neg h0, if_pos hks, hsel]

/-! Claim theorems. -/

/-- C2 counterexample: importing an RSA public key from PEM with public
exponent 3 produces the `e` field `"Aw=="`, which contains the `'='` padding
character — a character not in the Base64URL alphabet — refuting the claim
that every multi-byte numeric field, including `e`, is Base64URL text with no
padding characters. -/
theorem c2_counterexample :
    (RS256Key.fromPublicKey
        (.inr { nBuf := [0, 171, 17], eVal := 3, pBuf := [], qBuf := [],
                dBuf := [], coeffBuf := [], dmp1Buf := [], dmq1Buf := [] })
        "kid1" true).e = "Aw==" ∧
    '=' ∈ ("Aw==" : String).data ∧ '=' ∉ urlTable := by
  refine ⟨by decide, by decide, by decide⟩

/-- C2 (amended): for every RSA key imported from PEM, every multi-byte
numeric field of the resulting key object *except the public exponent `e`* is
Base64URL text with no padding characters; the `e` field is standard Base64
text, which can contain the `'='` padding character. -/
theorem c2_rsa_pem_field_encoding (kp : PemParsedKeyPair) (kid : String)
    (sig : Bool) :
    B64UrlNoPad (RS256Key.fromPublicKey (.inr kp) kid sig).n ∧
    B64UrlNoPad (RS256Key.fromPrivateKey (.inr kp) kid sig).n ∧
    B64UrlNoPad ((RS256Key.fromPrivateKey (.inr kp) kid sig).p.getD "") ∧
    B64UrlNoPad ((RS256Key.fromPrivateKey (.inr kp) kid sig).q.getD "") ∧
    B64UrlNoPad ((RS256Key.fromPrivateKey (.inr kp) kid sig).d.getD "") ∧
    B64UrlNoPad ((RS256Key.fromPrivateKey (.inr kp) kid sig).qi.getD "") ∧
    B64UrlNoPad ((RS256Key.fromPrivateKey (.inr kp) kid sig).dp.getD "") ∧
    B64UrlNoPad ((RS256Key.fromPrivateKey (.inr kp) kid sig).dq.getD "") ∧
    B64StdText (RS256Key.fromPublicKey (.inr kp) kid sig).e ∧
    B64StdText (RS256Key.fromPrivateKey (.inr kp) kid sig).e := by
  refine ⟨?_, ?_, ?_, ?_, ?_, ?_, ?_, ?_, ?_, ?_⟩ <;>
    first
      | exact b64url_noPad _
      | exact b64std_text _

/-- C3 counterexample: `"abzz"` is not well-formed hexadecimal, yet the hex
decoding path of `getOKP`/`getECKey` returns the partial byte sequence
`[171]` (the longest valid prefix `"ab"`) instead of failing with the
invalid-key-format decoding error. -/
theorem c3_counterexample :
    isHexText "abzz" = false ∧
    decodeKeyString .publicKeyHex "abzz" = .ok [171] :=
  ⟨by decide, rfl⟩

/-- C3 (amended): in the EC and OKP importers, the unrecognized format tag
(`publicKeyPem`) and a Base58 string with a non-alphabet character fail with
the invalid-key-format decoding error, and a well-formed hex string yields
the full decoded byte sequence; but hex decoding never fails — a malformed
hex string silently yields the bytes of its longest valid prefix, which are
then used to build the key. -/
theorem c3_decoding (s : String) :
    decodeKeyString .publicKeyPem s = .error INVALID_KEY_FORMAT ∧
    (isB58String s = false →
      decodeKeyString .publicKeyBase58 s = .error INVALID_KEY_FORMAT) ∧
    (isB58String s = true →
      decodeKeyString .publicKeyBase58 s = .ok (b58Decode s.data)) ∧
    decodeKeyString .publicKeyHex s = .ok (nodeHexDecode s.data) ∧
    (isHexText s = true → nodeHexDecode s.data = specFullHexDecode s.data) := by
  refine ⟨rfl, ?_, ?_, rfl, ?_⟩
  · intro h
    simp [decodeKeyString, h]
  · intro h
    simp [decodeKeyString, h]
  · intro h
    rw [isHexText, Bool.and_eq_true] at h
    exact nodeHexDecode_eq_full s.data.length s.data le_rfl h.1
      (by simpa using h.2)

/-- C3 witness: evaluating the amended decoding spec at concrete inputs. -/
theorem c3_decoding_witness :
    decodeKeyString .publicKeyBase58 "0" = .error INVALID_KEY_FORMAT ∧
    decodeKeyString .publicKeyBase58 "6f" = .ok (b58Decode "6f".data) ∧
    nodeHexDecode "ab12".data = specFullHexDecode "ab12".data :=
  ⟨(c3_decoding "0").2.1 (by decide),
   (c3_decoding "6f").2.2.1 (by decide),
   (c3_decoding "ab12").2.2.2.2 (by decide)⟩

/-- C4 counterexample: on the string `"6f"`, which hex, Base58 and Base64
decoding all accept, the `publicKeyPem` member of the `KEYFORMATS`
enumeration is rejected by the decoding switch with the invalid-key-format
error rather than being decoded — refuting the claim that every tag in the
enumeration is attempted. -/
theorem c4_counterexample :
    decodeKeyString .publicKeyPem "6f" = .error INVALID_KEY_FORMAT ∧
    decodeKeyString .publicKeyHex "6f" = .ok [111] ∧
    decodeKeyString .publicKeyBase58 "6f" = .ok [1, 72] ∧
    decodeKeyString .publicKeyBase64 "6f" = .ok [233] :=
  ⟨rfl, rfl, rfl, rfl⟩

/-- C4 (amended): the EC and OKP importers attempt to decode the key string
for the `publicKeyHex`, `publicKeyBase58` and `publicKeyBase64` tags, but the
`publicKeyPem` tag — although a member of the supported format enumeration —
always falls to the default branch and fails with the invalid-key-format
error. -/
theorem c4_formats (s : String) :
    decodeKeyString .publicKeyHex s = .ok (nodeHexDecode s.data) ∧
    decodeKeyString .publicKeyBase64 s = .ok (nodeBase64Decode s.data) ∧
    (isB58String s = true →
      decodeKeyString .publicKeyBase58 s = .ok (b58Decode s.data)) ∧
    decodeKeyString .publicKeyPem s = .error INVALID_KEY_FORMAT := by
  refine ⟨rfl, rfl, ?_, rfl⟩
  intro h
  simp [decodeKeyString, h]

/-- C4 witness: the Base58 branch of the amended claim at a concrete input. -/
theorem c4_formats_witness :
    decodeKeyString .publicKeyBase58 "6f" = .ok (b58Decode "6f".data) :=
  (c4_formats "6f").2.2.1 (by decide)

/-- C10: when `RS256Key.fromPublicKey` or `RS256Key.fromPrivateKey` receives
a canonical key object, the resulting `kid` comes from the object's own `kid`
field and the separately supplied `kid` argument is ignored entirely; on the
PEM-string path the supplied `kid` argument is used. -/
theorem c10_kid_source (o : RSAPublicKeyObject) (op : RSAPrivateKeyObject)
    (kp : PemParsedKeyPair) (kid1 kid2 : String) (sig : Bool) :
    (RS256Key.fromPublicKey (.inl o) kid1 sig).kid = o.kid ∧
    (RS256Key.fromPrivateKey (.inl op) kid1 sig).kid = op.kid ∧
    RS256Key.fromPublicKey (.inl o) kid1 sig
      = RS256Key.fromPublicKey (.inl o) kid2 sig ∧
    RS256Key.fromPrivateKey (.inl op) kid1 sig
      = RS256Key.fromPrivateKey (.inl op) kid2 sig ∧
    (RS256Key.fromPublicKey (.inr kp) kid1 sig).kid = kid1 ∧
    (RS256Key.fromPrivateKey (.inr kp) kid1 sig).kid = kid1 :=
  ⟨rfl, rfl, rfl, rfl, rfl, rfl⟩

/-- C1 counterexample: starting from the resolved document `docA`, extraction
caches the key set `[1]`; a successful `setDocument` to `docB` then leaves
the cache in place, and the next extraction call returns the stale `[1]`
even though a fresh pass over `docB` yields `[2]` — refuting the claim that
`setDocument` invalidates the cached Extracted Key Set. -/
theorem c1_counterexample :
    Identity.extractAuthenticationKeys stA extAB = .ok ([1], stB) ∧
    Identity.setDocument stB docB "did:x" = (stC, none) ∧
    Identity.extractAuthenticationKeys stC extAB = .ok ([1], stC) ∧
    walkMethods docB extAB [mB] = .ok [2] :=
  ⟨rfl, rfl, rfl, rfl⟩

/-- C1 (amended): after `setDocument` successfully replaces the document the
cached Extracted Key Set is *not* invalidated — a subsequent key-extraction
call returns the keys cached from the previously resolved document unchanged
instead of recomputing from the newly set document; only `resolve` clears
the cache. -/
theorem c1_setDocument_keeps_cache (st : Identity) (doc : DidDocument)
    (did : String) (st' : Identity) (ext : Extractor)
    (h : Identity.setDocument st doc did = (st', none))
    (hne : st.keySet ≠ []) (hdid : did ≠ "") :
    st'.doc = doc ∧ st'.keySet = st.keySet ∧
    Identity.extractAuthenticationKeys st' ext = .ok (st.keySet, st') ∧
    (∀ (st2 : Identity) (d2 : String) (doc2 : DidDocument) (r : String)
        (st3 : Identity),
      Identity.resolve st2 d2 (some (some doc2)) = .ok (r, st3) →
      st3.keySet = []) := by
  unfold Identity.setDocument at h
  split at h
  case isTrue hcond =>
    rw [Prod.mk.injEq] at h
    obtain ⟨h1, -⟩ := h
    subst h1
    refine ⟨rfl, rfl, ?_, ?_⟩
    · have hid : ¬(({ st with doc := doc } : Identity).doc.id = "") := by
        show ¬doc.id = ""
        rw [hcond.1]
        exact hdid
      have hlen : ¬(({ st with doc := doc } : Identity).keySet.length = 0) := by
        show ¬st.keySet.length = 0
        intro hl
        exact hne (List.length_eq_zero.mp hl)
      unfold Identity.extractAuthenticationKeys
      rw [if_neg hid, if_neg hlen]
    · intro st2 d2 doc2 r st3 hr
      simp only [Identity.resolve] at hr
      split at hr
      · rw [Except.ok.injEq, Prod.mk.injEq] at hr
        obtain ⟨-, h2⟩ := hr
        rw [← h2]
      · exact absurd hr (by simp)
  case isFalse hcond =>
    rw [Prod.mk.injEq] at h
    exact absurd h.2 (by simp)

/-- C1 witness: the amended claim evaluated on the concrete scenario of the
counterexample. -/
theorem c1_setDocument_keeps_cache_witness :
    stC.doc = docB ∧ stC.keySet = stB.keySet ∧
    Identity.extractAuthenticationKeys stC extAB = .ok (stB.keySet, stC) :=
  ⟨(c1_setDocument_keeps_cache stB docB "did:x" stC extAB rfl (by decide)
      (by decide)).1,
   (c1_setDocument_keeps_cache stB docB "did:x" stC extAB rfl (by decide)
      (by decide)).2.1,
   (c1_setDocument_keeps_cache stB docB "did:x" stC extAB rfl (by decide)
      (by decide)).2.2.1⟩

/-- C5: on a resolved non-ion document whose authentication list consists of
inline references (truthy `id` and `type`, no `publicKey` field), extraction
succeeds with no error and returns exactly the keys of the references the
extractor strategy can handle — one key per success, failures swallowed — so
with N references of which M are extractable it returns exactly M keys. -/
theorem c5_swallowed_failures (st : Identity) (ext : Extractor)
    (ms : List DidMethod)
    (h0 : ¬st.doc.id = "") (hion : isIonDoc st.doc = false)
    (hks : st.keySet = [])
    (hauth : st.doc.authentication = some ms)
    (hms : ms.all inlineOnlyB = true) :
    Identity.extractAuthenticationKeys st ext =
      .ok (ms.filterMap (fun m => ext (.fromMethod m)),
        { st with keySet := ms.filterMap (fun m => ext (.fromMethod m)) }) ∧
    (ms.filterMap (fun m => ext (.fromMethod m))).length
      = ms.countP (fun m => (ext (.fromMethod m)).isSome) := by
  constructor
  · have hlen : st.keySet.length = 0 := by rw [hks]; rfl
    have he := extract_fresh st ext ms h0 hlen
      (by rw [if_neg (by simp [hion])]; exact hauth)
    rw [he]
    unfold walkOutcome
    rw [walk_inline st.doc ext ms hms]
  · exact length_filterMap_count _ ms

/-- C5 witness: three inline references, the middle one with a type the
extractor cannot handle, yield exactly the two extractable keys in order. -/
theorem c5_swallowed_failures_witness :
    Identity.extractAuthenticationKeys stD extAB =
      .ok ([1, 2], { doc := stD.doc, keySet := [1, 2] }) :=
  (c5_swallowed_failures stD extAB [mA, mBad, mB] (by decide) (by decide) rfl
    rfl (by decide)).1

/-- C6: extraction is idempotent — if a call on a wrapper succeeds with key
sequence `ks` and resulting state `st'`, then calling extraction again on
`st'` (no intervening `setDocument` or `resolve`) succeeds with the identical
sequence and the identical state. -/
theorem c6_idempotent (st st' : Identity) (ext : Extractor) (ks : List Nat)
    (h : Identity.extractAuthenticationKeys st ext = .ok (ks, st')) :
    Identity.extractAuthenticationKeys st' ext = .ok (ks, st') := by
  by_cases h1 : st.doc.id = ""
  · rw [extract_unresolved st ext h1] at h
    exact absurd h (by simp)
  · by_cases h2 : st.keySet.length = 0
    · cases hsel : (if isIonDoc st.doc = true then st.doc.verificationMethod
                    else st.doc.authentication) with
      | none =>
          rw [extract_sel_none st ext h1 h2 hsel] at h
          exact absurd h (by simp)
      | some methods =>
          rw [extract_fresh st ext methods h1 h2 hsel] at h
          unfold walkOutcome at h
          cases hwk : walkMethods st.doc ext methods with
          | error e =>
              rw [hwk] at h
              exact absurd h (by simp)
          | ok ks0 =>
              rw [hwk] at h
              simp only [Except.ok.injEq, Prod.mk.injEq] at h
              obtain ⟨hk, hst⟩ := h
              subst hk
              subst hst
              by_cases h3 : ks0 = []
              · subst h3
                have hse : st.keySet = [] := List.length_eq_zero.mp h2
                have heq : ({ st with keySet := [] } : Identity) = st := by
                  rw [← hse]
                rw [heq, extract_fresh st ext methods h1 h2 hsel]
                unfold walkOutcome
                rw [hwk]
                simp [heq]
              · exact extract_cached { st with keySet := ks0 } ext h1
                  (fun hl => h3 (List.length_eq_zero.mp hl))
    · rw [extract_cached st ext h1 h2] at h
      rw [Except.ok.injEq, Prod.mk.injEq] at h
      obtain ⟨hk, hst⟩ := h
      subst hst
      rw [extract_cached st ext h1 h2, hk]

/-- C6 witness: the state after the first extraction re-extracts to the same
sequence. -/
theorem c6_idempotent_witness :
    Identity.extractAuthenticationKeys stB extAB = .ok ([1], stB) :=
  c6_idempotent stA stB extAB [1] rfl

/-- C7: the extraction pass selects its reference list by the `did:ion`
prefix of the document identifier: an ion document is walked over its
`verificationMethod` list (whatever its `authentication` list holds) and a
non-ion document is walked over its `authentication` list. -/
theorem c7_branch (st : Identity) (ext : Extractor) (ms : List DidMethod)
    (h0 : ¬st.doc.id = "") (hks : st.keySet = []) :
    (isIonDoc st.doc = true → st.doc.verificationMethod = some ms →
      Identity.extractAuthenticationKeys st ext = walkOutcome st ext ms) ∧
    (isIonDoc st.doc = false → st.doc.authentication = some ms →
      Identity.extractAuthenticationKeys st ext = walkOutcome st ext ms) := by
  have hlen : st.keySet.length = 0 := by rw [hks]; rfl
  constructor
  · intro hion hvm
    exact extract_fresh st ext ms h0 hlen (by rw [if_pos hion]; exact hvm)
  · intro hion hauth
    exact extract_fresh st ext ms h0 hlen
      (by rw [if_neg (by simp [hion])]; exact hauth)

/-- C7 witness: `docIon` has a non-empty `authentication` list (which would
yield key `1`) yet extraction walks `verificationMethod` and returns `[2]`. -/
theorem c7_branch_witness :
    Identity.extractAuthenticationKeys stIon extAB =
      .ok ([2], { doc := docIon, keySet := [2] }) :=
  (c7_branch stIon extAB [mB] (by decide) rfl).1 (by decide) rfl

/-- C8: an indirect reference (object with a `publicKey` field holding a
single string or a list of strings) is resolved against the document's
`publicKey` collection: for every named entry — each name of the list, in
list order — an entry matches exactly when its `id` equals the referenced
name or equals `document.id ++ name`, and every match is passed to the
extractor strategy, in collection order. -/
theorem c8_indirect (doc : DidDocument) (ext : Extractor) (name : String)
    (names : List String) (pubs : List PubEntry)
    (hpk : doc.publicKey = some pubs) (hname : name ≠ "") :
    processMethod doc ext (.obj none none (some (.one name))) =
      .ok (pubs.foldr
        (fun pub acc =>
          (if pub.id = name ∨ pub.id = doc.id ++ name then
            extractOne ext (.fromPub pub)
          else []) ++ acc)
        []) ∧
    processMethod doc ext (.obj none none (some (.many names))) =
      .ok (names.foldr
        (fun nm acc =>
          pubs.foldr
            (fun pub acc2 =>
              (if pub.id = nm ∨ pub.id = doc.id ++ nm then
                extractOne ext (.fromPub pub)
              else []) ++ acc2)
            [] ++ acc)
        []) := by
  constructor
  · show processPk doc ext (some (.one name)) [] = _
    simp [processPk, pkTruthy, hname, hpk, collectPubs_eq_foldr]
  · show processPk doc ext (some (.many names)) [] = _
    cases names with
    | nil => simp [processPk, pkTruthy]
    | cons n rest =>
        simp [processPk, pkTruthy, hpk, collectPubs_eq_foldr]

/-- C8 witness: the bare fragment reference `"#frag"` resolves to the entry
whose `id` is `"did:z" ++ "#frag"` and its key is extracted, through the
single-string shape; through the list shape, the two-entry reference list
`["#frag", "#k2"]` resolves each name in order to its matching entry. -/
theorem c8_indirect_witness :
    processMethod fragDoc extPub (.obj none none (some (.one "#frag")))
      = .ok [7] ∧
    processMethod fragDoc extPub (.obj none none (some (.many ["#frag", "#k2"])))
      = .ok [7, 9] :=
  ⟨(c8_indirect fragDoc extPub "#frag" ["#frag", "#k2"]
      [{ id := "did:z#frag", material := 7 }, { id := "did:z#k2", material := 9 }]
      rfl (by decide)).1,
   (c8_indirect fragDoc extPub "#frag" ["#frag", "#k2"]
      [{ id := "did:z#frag", material := 7 }, { id := "did:z#k2", material := 9 }]
      rfl (by decide)).2⟩

/-- C9: `setDocument(doc, did)` stores the document exactly when `doc.id`
equals `did` and `doc.authentication` is present and non-empty; otherwise it
fails with the invalid-document error and the wrapper state — in particular
the stored document — is unchanged. -/
theorem c9_setDocument_check (st : Identity) (doc : DidDocument)
    (did : String) :
    ((doc.id = did ∧ ∃ l, doc.authentication = some l ∧ l ≠ []) →
      Identity.setDocument st doc did = ({ st with doc := doc }, none)) ∧
    (¬(doc.id = did ∧ ∃ l, doc.authentication = some l ∧ l ≠ []) →
      Identity.setDocument st doc did = (st, some IdErr.invalidDocument)) := by
  constructor
  · intro hp
    have hc : doc.id = did ∧ authNonEmptyCheck doc = true :=
      ⟨hp.1, (authCheck_iff doc).mpr hp.2⟩
    unfold Identity.setDocument
    rw [if_pos hc]
  · intro hp
    have hc : ¬(doc.id = did ∧ authNonEmptyCheck doc = true) := by
      intro hcc
      exact hp ⟨hcc.1, (authCheck_iff doc).mp hcc.2⟩
    unfold Identity.setDocument
    rw [if_neg hc]

/-- C9 witness: a matching identifier with a non-empty authentication list is
stored; a mismatched identifier is rejected with the invalid-document error
and the state is returned unchanged. -/
theorem c9_setDocument_check_witness :
    Identity.setDocument stA docB "did:x" = ({ stA with doc := docB }, none) ∧
    Identity.setDocument stA docB "did:q"
      = (stA, some IdErr.invalidDocument) :=
  ⟨(c9_setDocument_check stA docB "did:x").1 ⟨rfl, [mB], rfl, by decide⟩,
   (c9_setDocument_check stA docB "did:q").2
     (fun hq => absurd hq.1 (by decide))⟩

end DidSiop
